import Mathlib

/-
Verification of the EscPosDecoder stream decoder (esc_pos_decoder.py).

The decoder is embedded shallowly:
- bytes are Nat values (Python iterates a bytes object as ints 0..255);
- the mutable decoder object becomes an explicit DecoderState record;
- Python exceptions that escape a method become Except.error values
  (a PyExc tag says which exception class was raised);
- the command dispatch tree (a nested dict mapping byte keys to bound
  methods) becomes a trie whose leaves are PrinterMethod tags, and each
  method's observable effect on the decoder is given by
  run_printer_method, with Python's co_argcount modelled per method.
-/

namespace EscPos

/-- Decoder modes, from class EscPosDecoderMode in the source. -/
inductive EscPosDecoderMode where
  | FILL_DATA_BUF
  | FILL_CMD_BUF
  | FILL_CMD_ARG_BUF
deriving DecidableEq, Repr

/-- Python exception classes that the decoder's code paths can raise. -/
inductive PyExc where
  | keyError
  | typeError
  | valueError
  | unicodeDecodeError
deriving DecidableEq, Repr

/-- Tags for the printer methods stored as leaves of decoder_tree.
Names follow the source methods (initialize_printer is shortened to
init_printer). -/
inductive PrinterMethod where
  | select_print_mode
  | select_userdef_charset
  | set_underline
  | set_font
  | init_printer
  | set_emphasis_mode
  | feed_forward_units
  | cut
  | select_justification
  | feed_forward_lines
  | pulse
  | upside_down
  | set_character_size
  | process_graphics_data
  | set_left_margin
  | cut_paper
  | set_print_area_width
  | set_barcode_height
deriving DecidableEq, Repr

/-- A node of the command dispatch tree: either a nested dict (assoc list
from byte to child) or a bound printer method (a leaf). -/
inductive DecoderTreeNode where
  | node : List (Nat × DecoderTreeNode) → DecoderTreeNode
  | leaf : PrinterMethod → DecoderTreeNode

/-- Python co_argcount of each printer method (self included), read off
the parameter lists in the source. -/
def co_argcount : PrinterMethod → Nat
  | .select_print_mode => 2
  | .select_userdef_charset => 2
  | .set_underline => 2
  | .set_font => 2
  | .init_printer => 1
  | .set_emphasis_mode => 2
  | .feed_forward_units => 2
  | .cut => 2
  | .select_justification => 2
  | .feed_forward_lines => 2
  | .pulse => 4
  | .upside_down => 2
  | .set_character_size => 2
  | .process_graphics_data => 5
  | .set_left_margin => 3
  | .cut_paper => 2
  | .set_print_area_width => 3
  | .set_barcode_height => 3

/-- The command decoding tree built in __init__ (byte values of the
single-character bytes keys; ESC = 0x1B, GS = 0x1D). -/
def decoder_tree : List (Nat × DecoderTreeNode) :=
  [ (0x1B, .node
      [ (0x21, .leaf .select_print_mode),
        (0x25, .leaf .select_userdef_charset),
        (0x2D, .leaf .set_underline),
        (0x4D, .leaf .set_font),
        (0x40, .leaf .init_printer),
        (0x45, .leaf .set_emphasis_mode),
        (0x4A, .leaf .feed_forward_units),
        (0x56, .leaf .cut),
        (0x61, .leaf .select_justification),
        (0x64, .leaf .feed_forward_lines),
        (0x70, .leaf .pulse),
        (0x7B, .leaf .upside_down) ]),
    (0x1D, .node
      [ (0x21, .leaf .set_character_size),
        (0x28, .node [ (0x4C, .leaf .process_graphics_data) ]),
        (0x4C, .leaf .set_left_margin),
        (0x56, .leaf .cut_paper),
        (0x57, .leaf .set_print_area_width),
        (0x68, .leaf .set_barcode_height) ]) ]

/-- Root of the dispatch tree (the top-level dict itself). -/
def tree_root : DecoderTreeNode := .node decoder_tree

/-- Dict lookup on an association list (Python dict indexing search[key]). -/
def tree_lookup : List (Nat × DecoderTreeNode) → Nat → Option DecoderTreeNode
  | [], _ => none
  | (k, v) :: rest, key => if key = k then some v else tree_lookup rest key

/-- The loop of _find_printer_method: for key in cmd_buf, search = search[key].
Indexing a dict with a missing key raises KeyError; indexing a bound method
(a leaf) raises TypeError. -/
def tree_walk : DecoderTreeNode → List Nat → Except PyExc DecoderTreeNode
  | t, [] => .ok t
  | .node entries, k :: ks =>
      match tree_lookup entries k with
      | some child => tree_walk child ks
      | none => .error .keyError
  | .leaf _, _ :: _ => .error .typeError

/-- PRINTABLES: byte values of the bytes literal in the source, in order
(duplicates kept; only membership is ever used). -/
def PRINTABLES : List Nat :=
  [ 48, 49, 50, 51, 52, 53, 54, 55, 56, 57,
    97, 98, 99, 100, 101, 102, 103, 104, 105, 106, 107, 108, 109, 110,
    111, 112, 113, 114, 115, 116, 117, 118, 119, 120, 121, 122,
    65, 66, 67, 68, 69, 70, 71, 72, 73, 74, 75, 76, 77, 78,
    79, 80, 81, 82, 83, 84, 85, 86, 87, 88, 89, 90,
    33, 35, 36, 37, 38, 39, 40, 41, 42, 43, 44, 45, 46, 47,
    58, 59, 60, 61, 62, 63, 64, 91, 92, 93, 94, 95, 96,
    123, 124, 125, 126, 32,
    34, 35, 36, 37, 38, 39, 40, 41, 43, 44, 45, 46, 47,
    58, 59, 60, 61, 62, 63, 64, 91, 92, 93, 94, 95, 96,
    123, 124, 125, 126, 32,
    9, 10, 13, 11, 12 ]

/-- The mutable attributes of an EscPosDecoder object (verbose omitted:
it only routes log output). -/
structure DecoderState where
  decoder_mode : EscPosDecoderMode
  num_decoding_errors : Nat
  printout_width : Nat
  cmd_buf : List Nat
  cmd_arg_buf : List Nat
  data_buf : List Nat
  cmd_expected_nargs : Nat
  num_parsed_bytes : Nat
  out_buf : List (List Nat)
deriving DecidableEq, Repr

/-- The state right after __init__ (num_decoding_errors := 0, then _reset). -/
def init_state : DecoderState :=
  { decoder_mode := .FILL_DATA_BUF
    num_decoding_errors := 0
    printout_width := 48
    cmd_buf := []
    cmd_arg_buf := []
    data_buf := []
    cmd_expected_nargs := 0
    num_parsed_bytes := 0
    out_buf := [] }

/-- The method _reset: note num_decoding_errors is NOT among the fields it
assigns; it is only set in __init__. -/
def reset_state (s : DecoderState) : DecoderState :=
  { s with
    decoder_mode := .FILL_DATA_BUF
    printout_width := 48
    cmd_buf := []
    cmd_arg_buf := []
    data_buf := []
    cmd_expected_nargs := 0
    num_parsed_bytes := 0
    out_buf := [] }

/-- The observable effect of invoking a printer method with the collected
argument bytes (args) on the output accumulator (ob).  Calling with the
wrong number of positional arguments raises TypeError; select_justification
raises ValueError on an unknown mode byte; feed_forward_lines and
feed_forward_units append a run of line feeds; every other method only
logs.  Returns the new out_buf or the exception raised. -/
def run_printer_method (pm : PrinterMethod) (args : List Nat)
    (ob : List (List Nat)) : Except PyExc (List (List Nat)) :=
  if args.length ≠ co_argcount pm - 1 then .error .typeError
  else
    match pm, args with
    | .feed_forward_lines, [n] => .ok (ob ++ [List.replicate n 10])
    | .feed_forward_units, [n] => .ok (ob ++ [List.replicate n 10])
    | .select_justification, [n] =>
        if n = 0 ∨ n = 48 ∨ n = 1 ∨ n = 49 ∨ n = 2 ∨ n = 50 then .ok ob
        else .error .valueError
    | _, _ => .ok ob

/-- The method _data_buf_to_output: join the data buffer, scan every byte
for membership in PRINTABLES (the foldl of or in the source is the same as
List.any of the negated membership), append the joined buffer to out_buf
only when no byte is non-printable, then clear the data buffer. -/
def data_buf_to_output (s : DecoderState) : DecoderState :=
  if s.data_buf.isEmpty then s
  else
    let has_non_printables := s.data_buf.any (fun c => !(PRINTABLES.contains c))
    if has_non_printables then { s with data_buf := [] }
    else { s with out_buf := s.out_buf ++ [s.data_buf], data_buf := [] }

/-- The method _terminate_feed: only in FILL_DATA_BUF mode is the data
buffer flushed; the other modes just log the leftover buffers. -/
def terminate_feed (s : DecoderState) : DecoderState :=
  match s.decoder_mode with
  | .FILL_DATA_BUF => data_buf_to_output s
  | .FILL_CMD_BUF => s
  | .FILL_CMD_ARG_BUF => s

/-- The method _find_printer_method.  On KeyError it increments
num_decoding_errors, clears cmd_arg_buf and cmd_buf, goes back to
FILL_DATA_BUF mode and returns None; a TypeError (walking through a leaf)
is not caught and propagates. -/
def find_printer_method (s : DecoderState) :
    Except PyExc (DecoderState × Option DecoderTreeNode) :=
  match tree_walk tree_root s.cmd_buf with
  | .ok t => .ok (s, some t)
  | .error .keyError =>
      .ok ({ s with
              num_decoding_errors := s.num_decoding_errors + 1
              cmd_arg_buf := []
              cmd_buf := []
              decoder_mode := .FILL_DATA_BUF }, none)
  | .error e => .error e

/-- The method printer_method_args_wrapper: call func(*args) catching every
exception (bare except), then clear cmd_buf, cmd_arg_buf, reset
cmd_expected_nargs and go back to FILL_DATA_BUF.  func is whatever
_find_printer_method returned: calling a dict or None also raises
TypeError, which the bare except catches as well, so only a leaf can
change out_buf. -/
def printer_method_args_wrapper (func : Option DecoderTreeNode)
    (s : DecoderState) : DecoderState :=
  let ob :=
    match func with
    | some (.leaf pm) =>
        match run_printer_method pm s.cmd_arg_buf s.out_buf with
        | .ok ob2 => ob2
        | .error _ => s.out_buf
    | _ => s.out_buf
  { s with
    out_buf := ob
    cmd_buf := []
    cmd_arg_buf := []
    cmd_expected_nargs := 0
    decoder_mode := .FILL_DATA_BUF }

/-- The method _process_command_buffer (the cmd_buf byte has already been
appended by the caller _feed_byte).  A callable result with zero declared
arguments (nargs = co_argcount - 1) is called directly, NOT through the
wrapper, so an exception there would propagate; with nargs > 0 the decoder
starts collecting arguments.  A dict result (incomplete prefix) or None
(failed search) is not callable and changes nothing further. -/
def process_command_buffer (s : DecoderState) : Except PyExc DecoderState :=
  match find_printer_method s with
  | .error e => .error e
  | .ok (s1, res) =>
      match res with
      | some (.leaf pm) =>
          let nargs := co_argcount pm - 1
          let s2 := { s1 with cmd_arg_buf := [] }
          if nargs = 0 then
            match run_printer_method pm [] s2.out_buf with
            | .ok ob =>
                .ok { s2 with
                        out_buf := ob
                        cmd_buf := []
                        cmd_arg_buf := []
                        cmd_expected_nargs := 0
                        decoder_mode := .FILL_DATA_BUF }
            | .error e => .error e
          else
            .ok { s2 with
                    cmd_expected_nargs := nargs
                    decoder_mode := .FILL_CMD_ARG_BUF }
      | some (.node _) => .ok s1
      | none => .ok s1

/-- The list of top-level dict keys (list(self.decoder_tree.keys())). -/
def decoder_tree_keys : List Nat := decoder_tree.map Prod.fst

/-- The method _feed_byte: parse one byte depending on the current mode. -/
def feed_byte (s : DecoderState) (b : Nat) : Except PyExc DecoderState :=
  match s.decoder_mode with
  | .FILL_DATA_BUF =>
      if decoder_tree_keys.contains b then
        let s1 := data_buf_to_output s
        .ok { s1 with
                cmd_buf := [b]
                cmd_arg_buf := []
                cmd_expected_nargs := 0
                decoder_mode := .FILL_CMD_BUF }
      else
        .ok { s with data_buf := s.data_buf ++ [b] }
  | .FILL_CMD_BUF =>
      process_command_buffer { s with cmd_buf := s.cmd_buf ++ [b] }
  | .FILL_CMD_ARG_BUF =>
      let s1 := { s with cmd_arg_buf := s.cmd_arg_buf ++ [b] }
      if s1.cmd_arg_buf.length = s1.cmd_expected_nargs then
        match find_printer_method s1 with
        | .error e => .error e
        | .ok (s2, res) => .ok (printer_method_args_wrapper res s2)
      else
        .ok s1

/-- The method feed_bytes: feed each byte of the chunk in order; an
uncaught exception aborts the loop. -/
def feed_bytes : DecoderState → List Nat → Except PyExc DecoderState
  | s, [] => .ok s
  | s, b :: bs =>
      match feed_byte s b with
      | .ok s1 => feed_bytes s1 bs
      | .error e => .error e

/-- Feeding a list of chunks by repeated feed_bytes calls (how a caller
delivers a split stream). -/
def feed_chunks : DecoderState → List (List Nat) → Except PyExc DecoderState
  | s, [] => .ok s
  | s, c :: cs =>
      match feed_bytes s c with
      | .ok s1 => feed_chunks s1 cs
      | .error e => .error e

/-- Validity of a byte sequence as UTF-8 (RFC 3629), modelling whether
bytes.decode with the UTF-8 codec succeeds.  Formulated as the standard
one-pass automaton: the state holds how many continuation bytes are still
expected and the allowed range of the next byte (the range of the first
continuation byte depends on the lead byte; later ones are 0x80-0xBF). -/
def utf8_step : (Nat × Nat × Nat) → Nat → Option (Nat × Nat × Nat)
  | (0, _, _), b =>
      if b ≤ 0x7F then some (0, 0, 0)
      else if 0xC2 ≤ b && b ≤ 0xDF then some (1, 0x80, 0xBF)
      else if b = 0xE0 then some (2, 0xA0, 0xBF)
      else if (0xE1 ≤ b && b ≤ 0xEC) || b = 0xEE || b = 0xEF then
        some (2, 0x80, 0xBF)
      else if b = 0xED then some (2, 0x80, 0x9F)
      else if b = 0xF0 then some (3, 0x90, 0xBF)
      else if 0xF1 ≤ b && b ≤ 0xF3 then some (3, 0x80, 0xBF)
      else if b = 0xF4 then some (3, 0x80, 0x8F)
      else none
  | (need + 1, lo, hi), b =>
      if lo ≤ b && b ≤ hi then some (need, 0x80, 0xBF) else none

/-- Run the UTF-8 automaton; at end of input no continuation byte may be
pending. -/
def utf8_run : (Nat × Nat × Nat) → List Nat → Bool
  | st, [] => st.1 == 0
  | st, b :: rest =>
      match utf8_step st b with
      | some st2 => utf8_run st2 rest
      | none => false

/-- UTF-8 validity checker over the byte list. -/
def utf8_valid (l : List Nat) : Bool := utf8_run (0, 0, 0) l

/-- The method get_text: terminate the feed, join the output accumulator,
decode it as UTF-8 (raising UnicodeDecodeError on invalid bytes), then
reset the decoder and return the text.  The text is modelled as the joined
byte list (its bytes ARE its characters for the all-ASCII outputs the
decoder produces). -/
def get_text (s : DecoderState) : Except PyExc (List Nat × DecoderState) :=
  let s1 := terminate_feed s
  let joined := s1.out_buf.flatten
  if utf8_valid joined then .ok (joined, reset_state s1)
  else .error .unicodeDecodeError

/-- The accessor get_num_decoding_errors. -/
def get_num_decoding_errors (s : DecoderState) : Nat := s.num_decoding_errors

end EscPos

deriving instance DecidableEq for Except

namespace EscPos

/- ------------------------------------------------------------------ -/
/- Helper lemmas                                                       -/
/- ------------------------------------------------------------------ -/

/-- Feeding a concatenation is feeding the two parts in sequence. -/
lemma feed_bytes_append (xs ys : List Nat) (s : DecoderState) :
    feed_bytes s (xs ++ ys) =
      match feed_bytes s xs with
      | .ok t => feed_bytes t ys
      | .error e => .error e := by
  induction xs generalizing s with
  | nil => simp [feed_bytes]
  | cons b xs ih =>
      simp only [List.cons_append, feed_bytes]
      cases feed_byte s b with
      | ok s1 => exact ih s1
      | error e => rfl

/-- Feeding a list of chunks one feed_bytes call at a time is the same as
feeding the flattened stream in a single call. -/
lemma feed_chunks_eq_flatten (chunks : List (List Nat)) (s : DecoderState) :
    feed_chunks s chunks = feed_bytes s chunks.flatten := by
  induction chunks generalizing s with
  | nil => simp [feed_chunks, feed_bytes]
  | cons c cs ih =>
      simp only [feed_chunks, List.flatten_cons, feed_bytes_append]
      cases feed_bytes s c with
      | ok s1 => exact ih s1
      | error e => rfl

/-- Shift of the error counter by a constant (used to compare a reused
decoder, whose counter was not cleared, with a fresh one). -/
def add_err (s : DecoderState) (e : Nat) : DecoderState :=
  { s with num_decoding_errors := s.num_decoding_errors + e }

/- Evaluation lemmas: feed_byte and its components, reduced per branch of
the source control flow.  These are the shapes the claim proofs rewrite
with. -/

lemma find_eval_ok (s : DecoderState) (t : DecoderTreeNode)
    (h : tree_walk tree_root s.cmd_buf = .ok t) :
    find_printer_method s = .ok (s, some t) := by
  simp [find_printer_method, h]

lemma find_eval_keyError (s : DecoderState)
    (h : tree_walk tree_root s.cmd_buf = .error .keyError) :
    find_printer_method s =
      .ok ({ s with
              num_decoding_errors := s.num_decoding_errors + 1
              cmd_arg_buf := []
              cmd_buf := []
              decoder_mode := .FILL_DATA_BUF }, none) := by
  simp [find_printer_method, h]

lemma find_eval_err (s : DecoderState) (exc : PyExc)
    (h : tree_walk tree_root s.cmd_buf = .error exc) (hne : exc ≠ .keyError) :
    find_printer_method s = .error exc := by
  cases exc
  · exact absurd rfl hne
  · simp [find_printer_method, h]
  · simp [find_printer_method, h]
  · simp [find_printer_method, h]

lemma run_zero_arity (pm : PrinterMethod) (ob : List (List Nat))
    (hn : co_argcount pm - 1 = 0) :
    run_printer_method pm [] ob = .ok ob := by
  cases pm <;> simp_all [co_argcount, run_printer_method]

lemma process_eval_node (s : DecoderState) (es : List (Nat × DecoderTreeNode))
    (h : tree_walk tree_root s.cmd_buf = .ok (.node es)) :
    process_command_buffer s = .ok s := by
  simp [process_command_buffer, find_eval_ok s _ h]

lemma process_eval_keyError (s : DecoderState)
    (h : tree_walk tree_root s.cmd_buf = .error .keyError) :
    process_command_buffer s =
      .ok { s with
              num_decoding_errors := s.num_decoding_errors + 1
              cmd_arg_buf := []
              cmd_buf := []
              decoder_mode := .FILL_DATA_BUF } := by
  simp [process_command_buffer, find_eval_keyError s h]

lemma process_eval_leaf_zero (s : DecoderState) (pm : PrinterMethod)
    (h : tree_walk tree_root s.cmd_buf = .ok (.leaf pm))
    (hn : co_argcount pm - 1 = 0) :
    process_command_buffer s =
      .ok { s with
              cmd_buf := []
              cmd_arg_buf := []
              cmd_expected_nargs := 0
              decoder_mode := .FILL_DATA_BUF } := by
  simp [process_command_buffer, find_eval_ok s _ h, hn, run_zero_arity pm _ hn]

lemma process_eval_leaf_pos (s : DecoderState) (pm : PrinterMethod)
    (h : tree_walk tree_root s.cmd_buf = .ok (.leaf pm))
    (hn : co_argcount pm - 1 ≠ 0) :
    process_command_buffer s =
      .ok { s with
              cmd_arg_buf := []
              cmd_expected_nargs := co_argcount pm - 1
              decoder_mode := .FILL_CMD_ARG_BUF } := by
  simp [process_command_buffer, find_eval_ok s _ h, hn]

lemma process_eval_err (s : DecoderState) (exc : PyExc)
    (h : tree_walk tree_root s.cmd_buf = .error exc) (hne : exc ≠ .keyError) :
    process_command_buffer s = .error exc := by
  simp [process_command_buffer, find_eval_err s exc h hne]

lemma feed_byte_data_lead (s : DecoderState) (b : Nat)
    (hm : s.decoder_mode = .FILL_DATA_BUF)
    (hb : b ∈ decoder_tree_keys) :
    feed_byte s b =
      .ok { data_buf_to_output s with
              cmd_buf := [b]
              cmd_arg_buf := []
              cmd_expected_nargs := 0
              decoder_mode := .FILL_CMD_BUF } := by
  simp [feed_byte, hm, hb]

lemma feed_byte_data_plain (s : DecoderState) (b : Nat)
    (hm : s.decoder_mode = .FILL_DATA_BUF)
    (hb : b ∉ decoder_tree_keys) :
    feed_byte s b = .ok { s with data_buf := s.data_buf ++ [b] } := by
  simp [feed_byte, hm, hb]

lemma feed_byte_cmd (s : DecoderState) (b : Nat)
    (hm : s.decoder_mode = .FILL_CMD_BUF) :
    feed_byte s b = process_command_buffer { s with cmd_buf := s.cmd_buf ++ [b] } := by
  simp [feed_byte, hm]

lemma feed_byte_arg_incomplete (s : DecoderState) (b : Nat)
    (hm : s.decoder_mode = .FILL_CMD_ARG_BUF)
    (hlen : ¬ s.cmd_arg_buf.length + 1 = s.cmd_expected_nargs) :
    feed_byte s b = .ok { s with cmd_arg_buf := s.cmd_arg_buf ++ [b] } := by
  simp [feed_byte, hm, hlen]

lemma feed_byte_arg_full (s : DecoderState) (b : Nat)
    (hm : s.decoder_mode = .FILL_CMD_ARG_BUF)
    (hlen : s.cmd_arg_buf.length + 1 = s.cmd_expected_nargs) :
    feed_byte s b =
      match find_printer_method { s with cmd_arg_buf := s.cmd_arg_buf ++ [b] } with
      | .error e => .error e
      | .ok (s2, res) => .ok (printer_method_args_wrapper res s2) := by
  simp [feed_byte, hm, hlen]

/- Commutation of every step with an error-counter offset: the feed loop
never reads the counter and only increments it, so shifting it by a
constant shifts every later value by the same constant. -/

lemma data_buf_to_output_add_err (s : DecoderState) (e : Nat) :
    data_buf_to_output (add_err s e) = add_err (data_buf_to_output s) e := by
  cases s
  simp only [data_buf_to_output, add_err]
  split
  · rfl
  · split <;> rfl

lemma find_printer_method_add_err (s : DecoderState) (e : Nat) :
    find_printer_method (add_err s e) =
      (find_printer_method s).map (fun p => (add_err p.1 e, p.2)) := by
  cases h : tree_walk tree_root s.cmd_buf with
  | ok t =>
      rw [find_eval_ok (add_err s e) t h, find_eval_ok s t h]
      rfl
  | error exc =>
      cases exc with
      | keyError =>
          rw [find_eval_keyError (add_err s e) h, find_eval_keyError s h]
          simp only [Except.map, Except.ok.injEq, Prod.mk.injEq, add_err,
            DecoderState.mk.injEq, and_true, true_and]
          omega
      | typeError =>
          rw [find_eval_err (add_err s e) _ h (by simp),
              find_eval_err s _ h (by simp)]
          rfl
      | valueError =>
          rw [find_eval_err (add_err s e) _ h (by simp),
              find_eval_err s _ h (by simp)]
          rfl
      | unicodeDecodeError =>
          rw [find_eval_err (add_err s e) _ h (by simp),
              find_eval_err s _ h (by simp)]
          rfl

lemma printer_method_args_wrapper_add_err (func : Option DecoderTreeNode)
    (s : DecoderState) (e : Nat) :
    printer_method_args_wrapper func (add_err s e) =
      add_err (printer_method_args_wrapper func s) e := by
  obtain ⟨m, n, pw, cb, cab, db, en, np, ob⟩ := s
  match func with
  | none => rfl
  | some (.node _) => rfl
  | some (.leaf pm) =>
      simp only [printer_method_args_wrapper, add_err]

lemma process_command_buffer_add_err (s : DecoderState) (e : Nat) :
    process_command_buffer (add_err s e) =
      (process_command_buffer s).map (fun t => add_err t e) := by
  cases h : tree_walk tree_root s.cmd_buf with
  | ok t =>
      match t with
      | .node es =>
          rw [process_eval_node (add_err s e) es h, process_eval_node s es h]
          rfl
      | .leaf pm =>
          by_cases hn : co_argcount pm - 1 = 0
          · rw [process_eval_leaf_zero (add_err s e) pm h hn,
                process_eval_leaf_zero s pm h hn]
            rfl
          · rw [process_eval_leaf_pos (add_err s e) pm h hn,
                process_eval_leaf_pos s pm h hn]
            rfl
  | error exc =>
      cases exc with
      | keyError =>
          rw [process_eval_keyError (add_err s e) h, process_eval_keyError s h]
          simp only [Except.map, Except.ok.injEq, add_err,
            DecoderState.mk.injEq, and_true, true_and]
          omega
      | typeError =>
          rw [process_eval_err (add_err s e) _ h (by simp),
              process_eval_err s _ h (by simp)]
          rfl
      | valueError =>
          rw [process_eval_err (add_err s e) _ h (by simp),
              process_eval_err s _ h (by simp)]
          rfl
      | unicodeDecodeError =>
          rw [process_eval_err (add_err s e) _ h (by simp),
              process_eval_err s _ h (by simp)]
          rfl

lemma feed_byte_add_err (s : DecoderState) (b : Nat) (e : Nat) :
    feed_byte (add_err s e) b = (feed_byte s b).map (fun t => add_err t e) := by
  cases hm : s.decoder_mode with
  | FILL_DATA_BUF =>
      by_cases hb : b ∈ decoder_tree_keys
      · rw [feed_byte_data_lead (add_err s e) b hm hb,
            feed_byte_data_lead s b hm hb, data_buf_to_output_add_err]
        rfl
      · rw [feed_byte_data_plain (add_err s e) b hm hb,
            feed_byte_data_plain s b hm hb]
        rfl
  | FILL_CMD_BUF =>
      rw [feed_byte_cmd (add_err s e) b hm, feed_byte_cmd s b hm]
      exact process_command_buffer_add_err { s with cmd_buf := s.cmd_buf ++ [b] } e
  | FILL_CMD_ARG_BUF =>
      by_cases hlen : s.cmd_arg_buf.length + 1 = s.cmd_expected_nargs
      · rw [feed_byte_arg_full (add_err s e) b hm hlen,
            feed_byte_arg_full s b hm hlen,
            show find_printer_method
                  { add_err s e with cmd_arg_buf := (add_err s e).cmd_arg_buf ++ [b] }
                = find_printer_method
                    (add_err { s with cmd_arg_buf := s.cmd_arg_buf ++ [b] } e) from rfl,
            find_printer_method_add_err]
        cases hf : find_printer_method { s with cmd_arg_buf := s.cmd_arg_buf ++ [b] } with
        | error exc => rfl
        | ok p =>
            obtain ⟨s1, res⟩ := p
            show Except.ok (printer_method_args_wrapper res (add_err s1 e)) = _
            rw [printer_method_args_wrapper_add_err]
            rfl
      · rw [feed_byte_arg_incomplete (add_err s e) b hm hlen,
            feed_byte_arg_incomplete s b hm hlen]
        rfl

lemma feed_bytes_add_err (s : DecoderState) (bs : List Nat) (e : Nat) :
    feed_bytes (add_err s e) bs = (feed_bytes s bs).map (fun t => add_err t e) := by
  induction bs generalizing s with
  | nil => rfl
  | cons b bs ih =>
      simp only [feed_bytes, feed_byte_add_err]
      cases feed_byte s b with
      | ok s1 => simpa using ih s1
      | error exc => rfl

lemma terminate_feed_add_err (s : DecoderState) (e : Nat) :
    terminate_feed (add_err s e) = add_err (terminate_feed s) e := by
  have hmode : (add_err s e).decoder_mode = s.decoder_mode := rfl
  simp only [terminate_feed, hmode]
  cases s.decoder_mode with
  | FILL_DATA_BUF => exact data_buf_to_output_add_err s e
  | FILL_CMD_BUF => rfl
  | FILL_CMD_ARG_BUF => rfl

lemma reset_state_add_err (s : DecoderState) (e : Nat) :
    reset_state (add_err s e) = add_err (reset_state s) e := by
  cases s; rfl

lemma get_text_add_err (s : DecoderState) (e : Nat) :
    get_text (add_err s e) = (get_text s).map (fun p => (p.1, add_err p.2 e)) := by
  simp only [get_text, terminate_feed_add_err]
  have hob : (add_err (terminate_feed s) e).out_buf = (terminate_feed s).out_buf := rfl
  rw [hob, reset_state_add_err]
  split <;> rfl

/-- reset_state produces the construction-time state except that the error
counter keeps its current value. -/
lemma reset_state_eq (s : DecoderState) :
    reset_state s = { init_state with num_decoding_errors := s.num_decoding_errors } := by
  cases s; rfl

lemma terminate_feed_num (s : DecoderState) :
    (terminate_feed s).num_decoding_errors = s.num_decoding_errors := by
  simp only [terminate_feed]
  cases s.decoder_mode with
  | FILL_DATA_BUF =>
      simp only [data_buf_to_output]
      split
      · rfl
      · split <;> rfl
  | FILL_CMD_BUF => rfl
  | FILL_CMD_ARG_BUF => rfl

/-- Whatever state get_text succeeds from, the state it leaves behind is the
initial one with the error counter carried over. -/
lemma get_text_ok_state (s s2 : DecoderState) (t : List Nat)
    (h : get_text s = .ok (t, s2)) :
    s2 = { init_state with num_decoding_errors := s.num_decoding_errors } := by
  simp only [get_text] at h
  split at h
  · injection h with h1
    injection h1 with ht hs
    rw [← hs, reset_state_eq, terminate_feed_num]
  · exact absurd h (by simp)


/- ------------------------------------------------------------------ -/
/- Claim theorems                                                      -/
/- ------------------------------------------------------------------ -/

/-- Helper: pointwise Bool fact relating the source's any-non-printable
scan to the all-printable check. -/
lemma any_not_contains (l : List Nat) :
    (l.any fun c => !(PRINTABLES.contains c)) =
      !(l.all fun c => PRINTABLES.contains c) := by
  rw [List.all_eq_not_any_not]
  simp

/-- C2: feeding a byte stream in any split into chunks produces exactly the
state of a single feed_bytes call on the whole stream, hence the same
finalized text and the same error count. -/
theorem chunk_boundary_independence (chunks : List (List Nat)) :
    feed_chunks init_state chunks = feed_bytes init_state chunks.flatten ∧
    (feed_chunks init_state chunks).map get_text =
      (feed_bytes init_state chunks.flatten).map get_text ∧
    (feed_chunks init_state chunks).map get_num_decoding_errors =
      (feed_bytes init_state chunks.flatten).map get_num_decoding_errors := by
  refine ⟨feed_chunks_eq_flatten chunks init_state, ?_, ?_⟩ <;>
    rw [feed_chunks_eq_flatten]

/-- C1 counterexample: after a session that saw one unresolved command path
(ESC followed by 0x42), get_text succeeds but the decoder left behind still
reports 1 decoding error, not 0: _reset does not clear the counter. -/
theorem get_text_does_not_clear_error_counter :
    (feed_bytes init_state [27, 66]).bind get_text =
      .ok ([], { init_state with num_decoding_errors := 1 }) ∧
    get_num_decoding_errors { init_state with num_decoding_errors := 1 } ≠ 0 := by
  exact ⟨by decide, by decide⟩

/-- C1 (amended): finalization resets the mode and every buffer, so a new
session produces the same text as a fresh decoder; but the error counter is
NOT cleared (only construction zeroes it), so after the second session the
counter holds the sum of both sessions' unresolved-path errors. -/
theorem finalize_resets_decoder_except_error_counter
    (bs bs2 : List Nat) (s s2 sb s2b : DecoderState) (t tb : List Nat)
    (h1 : feed_bytes init_state bs = .ok s)
    (h2 : get_text s = .ok (t, s2))
    (h3 : feed_bytes init_state bs2 = .ok sb)
    (h4 : get_text sb = .ok (tb, s2b)) :
    s2 = { init_state with num_decoding_errors := s.num_decoding_errors } ∧
    (feed_bytes s2 bs2).bind get_text =
      .ok (tb, { init_state with
                   num_decoding_errors :=
                     s.num_decoding_errors + sb.num_decoding_errors }) := by
  have hs2 := get_text_ok_state s s2 t h2
  have hs2b := get_text_ok_state sb s2b tb h4
  refine ⟨hs2, ?_⟩
  have hinit : s2 = add_err init_state s.num_decoding_errors := by
    rw [hs2]; simp [add_err, init_state]
  rw [hinit, feed_bytes_add_err, h3]
  show get_text (add_err sb s.num_decoding_errors) = _
  rw [get_text_add_err, h4]
  show Except.ok (tb, add_err s2b s.num_decoding_errors) = _
  rw [hs2b]
  have : add_err { init_state with num_decoding_errors := sb.num_decoding_errors }
           s.num_decoding_errors
      = { init_state with
            num_decoding_errors :=
              s.num_decoding_errors + sb.num_decoding_errors } := by
    simp [add_err, init_state, Nat.add_comm]
  rw [this]

/-- C1 witness: first session [27, 66] (one error), finalize, then second
session [66] from the reused decoder. -/
theorem finalize_resets_decoder_except_error_counter_witness :
    ({ init_state with num_decoding_errors := 1 } : DecoderState) =
      { init_state with num_decoding_errors := 1 } ∧
    (feed_bytes { init_state with num_decoding_errors := 1 } [66]).bind get_text =
      .ok ([66], { init_state with num_decoding_errors := 1 + 0 }) :=
  finalize_resets_decoder_except_error_counter [27, 66] [66]
    { init_state with num_decoding_errors := 1 }
    { init_state with num_decoding_errors := 1 }
    { init_state with data_buf := [66] }
    init_state [] [66] (by decide) (by decide) (by decide) (by decide)

/-- C3: in FILL_CMD_BUF mode, a byte whose extended command buffer resolves
to no dispatch-tree entry (dict KeyError) is recovered from: the error
counter goes up by exactly 1, no exception escapes, the command buffer is
discarded and the decoder returns to data collection. -/
theorem unresolved_path_recovery (s : DecoderState) (b : Nat)
    (hmode : s.decoder_mode = .FILL_CMD_BUF)
    (hfail : tree_walk tree_root (s.cmd_buf ++ [b]) = .error .keyError) :
    feed_byte s b =
      .ok { s with
              num_decoding_errors := s.num_decoding_errors + 1
              cmd_buf := []
              cmd_arg_buf := []
              decoder_mode := .FILL_DATA_BUF } := by
  rw [feed_byte_cmd s b hmode,
      process_eval_keyError { s with cmd_buf := s.cmd_buf ++ [b] } hfail]

/-- C3 witness: ESC followed by 0x42, which is not a child of the ESC
node. -/
theorem unresolved_path_recovery_witness :
    feed_byte { init_state with decoder_mode := .FILL_CMD_BUF, cmd_buf := [27] } 66 =
      .ok { init_state with num_decoding_errors := 0 + 1 } :=
  unresolved_path_recovery
    { init_state with decoder_mode := .FILL_CMD_BUF, cmd_buf := [27] } 66
    rfl rfl

/-- C4: flushing the data buffer appends it verbatim to the output exactly
when every byte is in PRINTABLES, discards it entirely otherwise, and in
both cases raises nothing, clears the data buffer and leaves the error
counter (and mode and command buffer) untouched. -/
theorem printable_filter_flush (s : DecoderState) :
    (data_buf_to_output s).out_buf.flatten =
      (if ∀ c ∈ s.data_buf, c ∈ PRINTABLES
       then s.out_buf.flatten ++ s.data_buf
       else s.out_buf.flatten) ∧
    (data_buf_to_output s).data_buf = [] ∧
    (data_buf_to_output s).num_decoding_errors = s.num_decoding_errors ∧
    (data_buf_to_output s).decoder_mode = s.decoder_mode ∧
    (data_buf_to_output s).cmd_buf = s.cmd_buf := by
  obtain ⟨m, n, pw, cb, cab, db, en, np, ob⟩ := s
  by_cases hdb : db = []
  · subst hdb
    simp [data_buf_to_output]
  · by_cases hall : ∀ c ∈ db, c ∈ PRINTABLES
    · have hno : ¬ ∃ x ∈ db, x ∉ PRINTABLES := by push_neg; exact hall
      simp only [data_buf_to_output, if_pos hall]
      simp [hdb, hno]
    · have hyes : ∃ x ∈ db, x ∉ PRINTABLES := by push_neg at hall; exact hall
      simp only [data_buf_to_output, if_neg hall]
      simp [hdb, hyes]

/-- C5: a resolved command whose printer method raises during invocation is
caught by the bare except in printer_method_args_wrapper: the feed returns
normally, the error counter is unchanged, both command buffers are cleared,
the expected arity is zeroed and the decoder is back in data mode. -/
theorem handler_failure_caught_and_uncounted (s : DecoderState) (b : Nat)
    (pm : PrinterMethod) (exc : PyExc)
    (hmode : s.decoder_mode = .FILL_CMD_ARG_BUF)
    (hlen : s.cmd_arg_buf.length + 1 = s.cmd_expected_nargs)
    (hleaf : tree_walk tree_root s.cmd_buf = .ok (.leaf pm))
    (hraise : run_printer_method pm (s.cmd_arg_buf ++ [b]) s.out_buf = .error exc) :
    feed_byte s b =
      .ok { s with
              cmd_buf := []
              cmd_arg_buf := []
              cmd_expected_nargs := 0
              decoder_mode := .FILL_DATA_BUF } := by
  rw [feed_byte_arg_full s b hmode hlen,
      find_eval_ok { s with cmd_arg_buf := s.cmd_arg_buf ++ [b] } (.leaf pm) hleaf]
  show Except.ok (printer_method_args_wrapper (some (.leaf pm))
        { s with cmd_arg_buf := s.cmd_arg_buf ++ [b] }) = _
  simp only [printer_method_args_wrapper]
  rw [hraise]

/-- C5 witness: ESC a (select justification) with argument byte 5, an
unknown justification mode, raising ValueError. -/
theorem handler_failure_caught_and_uncounted_witness :
    feed_byte { init_state with
                decoder_mode := .FILL_CMD_ARG_BUF
                cmd_buf := [27, 97]
                cmd_expected_nargs := 1 } 5 =
      .ok init_state :=
  handler_failure_caught_and_uncounted
    { init_state with
      decoder_mode := .FILL_CMD_ARG_BUF
      cmd_buf := [27, 97]
      cmd_expected_nargs := 1 } 5
    .select_justification .valueError rfl rfl rfl rfl

/-- C7: calling get_text while a command or its arguments are still being
collected ignores the command/argument buffers entirely: the text is just
the joined output accumulator, and the error counter survives unchanged
into the reset state. -/
theorem truncated_command_discarded_at_finalize (s : DecoderState)
    (h : s.decoder_mode = .FILL_CMD_BUF ∨ s.decoder_mode = .FILL_CMD_ARG_BUF) :
    get_text s =
      (if utf8_valid s.out_buf.flatten
       then .ok (s.out_buf.flatten, reset_state s)
       else .error .unicodeDecodeError) ∧
    (reset_state s).num_decoding_errors = s.num_decoding_errors ∧
    (reset_state s).cmd_buf = [] ∧
    (reset_state s).cmd_arg_buf = [] ∧
    (reset_state s).data_buf = [] := by
  have hterm : terminate_feed s = s := by
    cases h with
    | inl h => simp [terminate_feed, h]
    | inr h => simp [terminate_feed, h]
  exact ⟨by simp only [get_text, hterm], rfl, rfl, rfl, rfl⟩

/-- C7 witness: finalizing mid-command (GS pending in the command buffer)
returns only the accumulated output and keeps the error count. -/
theorem truncated_command_discarded_at_finalize_witness :
    get_text { init_state with
               decoder_mode := .FILL_CMD_BUF
               cmd_buf := [29]
               out_buf := [[72]] } =
      .ok ([72], init_state) ∧
    (0 : Nat) = 0 ∧ ([] : List Nat) = [] ∧ ([] : List Nat) = [] ∧
    ([] : List Nat) = [] :=
  truncated_command_discarded_at_finalize
    { init_state with
      decoder_mode := .FILL_CMD_BUF
      cmd_buf := [29]
      out_buf := [[72]] }
    (Or.inl rfl)

/-- C8: the session "A", ESC @, "B" finalizes to the text bytes of "AB"
with zero decoding errors: the recognized printer-initialize command is
consumed and never echoed. -/
theorem command_consumption_AB :
    (feed_bytes init_state [65, 27, 64, 66]).bind get_text =
      .ok ([65, 66], init_state) ∧
    (feed_bytes init_state [65, 27, 64, 66]).map get_num_decoding_errors =
      .ok 0 := by
  exact ⟨by decide, by decide⟩

/-- Helper for C9: completing the one-argument feed-forward-lines command
(command buffer ESC d) with argument byte n appends exactly one fragment
of n line feeds to the output accumulator. -/
lemma feed_byte_feed_forward_lines (s : DecoderState) (n : Nat)
    (hmode : s.decoder_mode = .FILL_CMD_ARG_BUF)
    (hcmd : s.cmd_buf = [27, 100])
    (harg : s.cmd_arg_buf = [])
    (hnargs : s.cmd_expected_nargs = 1) :
    feed_byte s n =
      .ok { s with
              cmd_buf := []
              cmd_arg_buf := []
              cmd_expected_nargs := 0
              decoder_mode := .FILL_DATA_BUF
              out_buf := s.out_buf ++ [List.replicate n 10] } ∧
    (List.replicate n 10).length = n := by
  constructor
  · have hlen : s.cmd_arg_buf.length + 1 = s.cmd_expected_nargs := by
      simp [harg, hnargs]
    have hwalk : tree_walk tree_root s.cmd_buf = .ok (.leaf .feed_forward_lines) := by
      rw [hcmd]; rfl
    rw [feed_byte_arg_full s n hmode hlen,
        find_eval_ok { s with cmd_arg_buf := s.cmd_arg_buf ++ [n] }
          (.leaf .feed_forward_lines) hwalk]
    show Except.ok (printer_method_args_wrapper (some (.leaf .feed_forward_lines))
          { s with cmd_arg_buf := s.cmd_arg_buf ++ [n] }) = _
    simp only [printer_method_args_wrapper]
    rw [harg]
    rfl
  · simp

/-- C9: feeding ESC d n to a fresh decoder appends exactly one output
fragment made of n line-feed bytes (so with argument byte 3, exactly 3
line feeds). -/
theorem feed_forward_lines_appends_n_linefeeds (n : Nat) :
    feed_bytes init_state [27, 100, n] =
      .ok { init_state with out_buf := [List.replicate n 10] } ∧
    (List.replicate n 10).length = n := by
  constructor
  · have ha : feed_byte init_state 27 =
        .ok { init_state with
              decoder_mode := .FILL_CMD_BUF
              cmd_buf := [27] } := by decide
    have hb : feed_byte { init_state with
                decoder_mode := .FILL_CMD_BUF
                cmd_buf := [27] } 100 =
        .ok { init_state with
              decoder_mode := .FILL_CMD_ARG_BUF
              cmd_buf := [27, 100]
              cmd_expected_nargs := 1 } := by decide
    have hc := feed_byte_feed_forward_lines
      { init_state with
        decoder_mode := .FILL_CMD_ARG_BUF
        cmd_buf := [27, 100]
        cmd_expected_nargs := 1 } n
      rfl rfl rfl rfl
    simp only [feed_bytes, ha, hb, hc]
    rfl
  · simp


/- ------------------------------------------------------------------ -/
/- Reachability invariant and the UTF-8 safety of get_text (C10)       -/
/- ------------------------------------------------------------------ -/

/-- Every fragment ever placed in the output accumulator holds only
printable bytes. -/
def out_buf_printable (s : DecoderState) : Prop :=
  ∀ frag ∈ s.out_buf, ∀ c ∈ frag, c ∈ PRINTABLES

/-- In command mode the command buffer resolves to an internal dict node;
in argument mode it resolves to a printer method. -/
def cmd_buf_consistent (s : DecoderState) : Prop :=
  (s.decoder_mode = .FILL_CMD_BUF →
    ∃ es, tree_walk tree_root s.cmd_buf = .ok (.node es)) ∧
  (s.decoder_mode = .FILL_CMD_ARG_BUF →
    ∃ pm, tree_walk tree_root s.cmd_buf = .ok (.leaf pm))

/-- The reachability invariant of the decoder. -/
def decoder_inv (s : DecoderState) : Prop :=
  cmd_buf_consistent s ∧ out_buf_printable s

lemma tree_walk_append (t : DecoderTreeNode) (xs : List Nat) (b : Nat) :
    tree_walk t (xs ++ [b]) =
      match tree_walk t xs with
      | .ok (.node es) =>
          (match tree_lookup es b with
           | some c => .ok c
           | none => .error .keyError)
      | .ok (.leaf _) => .error .typeError
      | .error e => .error e := by
  induction xs generalizing t with
  | nil =>
      cases t with
      | leaf pm => rfl
      | node es =>
          show tree_walk (.node es) [b] = _
          simp only [tree_walk]
  | cons k ks ih =>
      cases t with
      | leaf pm => rfl
      | node es =>
          show tree_walk (.node es) (k :: (ks ++ [b])) = _
          simp only [tree_walk]
          cases tree_lookup es k with
          | some child => exact ih child
          | none => rfl

/-- Everything a successful printer-method invocation can do to the output
accumulator: leave it alone, or append one run of line feeds. -/
lemma run_printer_method_ok_shape (pm : PrinterMethod) (args : List Nat)
    (ob ob2 : List (List Nat)) (h : run_printer_method pm args ob = .ok ob2) :
    ob2 = ob ∨ ∃ k, ob2 = ob ++ [List.replicate k 10] := by
  simp only [run_printer_method] at h
  split at h
  · exact absurd h (by simp)
  · split at h
    · exact Or.inr ⟨_, (Except.ok.inj h).symm⟩
    · exact Or.inr ⟨_, (Except.ok.inj h).symm⟩
    · split at h
      · exact Or.inl (Except.ok.inj h).symm
      · exact absurd h (by simp)
    · exact Or.inl (Except.ok.inj h).symm

lemma printer_method_args_wrapper_out_buf (func : Option DecoderTreeNode)
    (s : DecoderState) :
    (printer_method_args_wrapper func s).out_buf = s.out_buf ∨
      ∃ k, (printer_method_args_wrapper func s).out_buf =
        s.out_buf ++ [List.replicate k 10] := by
  match func with
  | none => exact Or.inl rfl
  | some (.node es) => exact Or.inl rfl
  | some (.leaf pm) =>
      simp only [printer_method_args_wrapper]
      cases hr : run_printer_method pm s.cmd_arg_buf s.out_buf with
      | ok ob2 =>
          simpa using run_printer_method_ok_shape pm s.cmd_arg_buf s.out_buf ob2 hr
      | error exc => exact Or.inl rfl

/-- Shape of a data-buffer flush on the output accumulator. -/
lemma data_buf_to_output_out_buf (s : DecoderState) :
    (data_buf_to_output s).out_buf = s.out_buf ∨
      ((data_buf_to_output s).out_buf = s.out_buf ++ [s.data_buf] ∧
        ∀ c ∈ s.data_buf, c ∈ PRINTABLES) := by
  obtain ⟨m, n, pw, cb, cab, db, en, np, ob⟩ := s
  by_cases hdb : db = []
  · subst hdb
    exact Or.inl rfl
  · by_cases hall : ∀ c ∈ db, c ∈ PRINTABLES
    · have hno : ¬ ∃ x ∈ db, x ∉ PRINTABLES := by push_neg; exact hall
      right
      constructor
      · show (data_buf_to_output _).out_buf = ob ++ [db]
        simp only [data_buf_to_output]
        simp [hdb, hno]
      · exact hall
    · have hyes : ∃ x ∈ db, x ∉ PRINTABLES := by push_neg at hall; exact hall
      left
      show (data_buf_to_output _).out_buf = ob
      simp only [data_buf_to_output]
      simp [hdb, hyes]

lemma data_buf_to_output_printable (s : DecoderState)
    (h : out_buf_printable s) : out_buf_printable (data_buf_to_output s) := by
  rcases data_buf_to_output_out_buf s with hob | ⟨hob, hall⟩ <;>
    intro frag hfrag c hc
  · rw [hob] at hfrag
    exact h frag hfrag c hc
  · rw [hob] at hfrag
    rcases List.mem_append.mp hfrag with h1 | h2
    · exact h frag h1 c hc
    · have hfr : frag = s.data_buf := by simpa using h2
      exact hall c (hfr ▸ hc)

lemma printer_method_args_wrapper_printable (func : Option DecoderTreeNode)
    (s : DecoderState) (h : out_buf_printable s) :
    out_buf_printable (printer_method_args_wrapper func s) := by
  rcases printer_method_args_wrapper_out_buf func s with hob | ⟨k, hob⟩ <;>
    intro frag hfrag c hc
  · rw [hob] at hfrag
    exact h frag hfrag c hc
  · rw [hob] at hfrag
    rcases List.mem_append.mp hfrag with h1 | h2
    · exact h frag h1 c hc
    · have hfr : frag = List.replicate k 10 := by simpa using h2
      have hc10 : c = 10 := List.eq_of_mem_replicate (hfr ▸ hc)
      rw [hc10]
      decide

/-- One feed step from an invariant state cannot raise, and re-establishes
the invariant. -/
lemma feed_byte_preserves_inv (s : DecoderState) (b : Nat)
    (hinv : decoder_inv s) :
    ∃ s2, feed_byte s b = .ok s2 ∧ decoder_inv s2 := by
  obtain ⟨⟨hcmdc, hargc⟩, hout⟩ := hinv
  cases hm : s.decoder_mode with
  | FILL_DATA_BUF =>
      by_cases hb : b ∈ decoder_tree_keys
      · refine ⟨_, feed_byte_data_lead s b hm hb, ⟨?_, ?_⟩, ?_⟩
        · intro _
          have hb2 : b = 27 ∨ b = 29 := by
            simpa [decoder_tree_keys, decoder_tree] using hb
          rcases hb2 with rfl | rfl
          · exact ⟨_, rfl⟩
          · exact ⟨_, rfl⟩
        · intro hcontra
          simp at hcontra
        · exact data_buf_to_output_printable s hout
      · refine ⟨_, feed_byte_data_plain s b hm hb, ⟨?_, ?_⟩, hout⟩
        · intro hcontra
          have h2 : s.decoder_mode = .FILL_CMD_BUF := hcontra
          rw [hm] at h2
          simp at h2
        · intro hcontra
          have h2 : s.decoder_mode = .FILL_CMD_ARG_BUF := hcontra
          rw [hm] at h2
          simp at h2
  | FILL_CMD_BUF =>
      obtain ⟨es, hwalk⟩ := hcmdc hm
      cases hl : tree_lookup es b with
      | none =>
          have hwalk2 : tree_walk tree_root (s.cmd_buf ++ [b]) = .error .keyError := by
            rw [tree_walk_append, hwalk]
            simp only [hl]
          have hfb := process_eval_keyError { s with cmd_buf := s.cmd_buf ++ [b] } hwalk2
          rw [← feed_byte_cmd s b hm] at hfb
          refine ⟨_, hfb, ⟨?_, ?_⟩, ?_⟩
          · intro hcontra
            simp at hcontra
          · intro hcontra
            simp at hcontra
          · exact hout
      | some child =>
          have hwalk2 : tree_walk tree_root (s.cmd_buf ++ [b]) = .ok child := by
            rw [tree_walk_append, hwalk]
            simp only [hl]
          cases child with
          | node es2 =>
              have hfb := process_eval_node { s with cmd_buf := s.cmd_buf ++ [b] } es2 hwalk2
              rw [← feed_byte_cmd s b hm] at hfb
              refine ⟨_, hfb, ⟨?_, ?_⟩, ?_⟩
              · intro _
                exact ⟨es2, hwalk2⟩
              · intro hcontra
                have h2 : s.decoder_mode = .FILL_CMD_ARG_BUF := hcontra
                rw [hm] at h2
                simp at h2
              · exact hout
          | leaf pm =>
              by_cases hn : co_argcount pm - 1 = 0
              · have hfb := process_eval_leaf_zero { s with cmd_buf := s.cmd_buf ++ [b] } pm hwalk2 hn
                rw [← feed_byte_cmd s b hm] at hfb
                refine ⟨_, hfb, ⟨?_, ?_⟩, ?_⟩
                · intro hcontra
                  simp at hcontra
                · intro hcontra
                  simp at hcontra
                · exact hout
              · have hfb := process_eval_leaf_pos { s with cmd_buf := s.cmd_buf ++ [b] } pm hwalk2 hn
                rw [← feed_byte_cmd s b hm] at hfb
                refine ⟨_, hfb, ⟨?_, ?_⟩, ?_⟩
                · intro hcontra
                  simp at hcontra
                · intro _
                  exact ⟨pm, hwalk2⟩
                · exact hout
  | FILL_CMD_ARG_BUF =>
      obtain ⟨pm, hwalk⟩ := hargc hm
      by_cases hlen : s.cmd_arg_buf.length + 1 = s.cmd_expected_nargs
      · have hfb : feed_byte s b =
            .ok (printer_method_args_wrapper (some (.leaf pm))
              { s with cmd_arg_buf := s.cmd_arg_buf ++ [b] }) := by
          rw [feed_byte_arg_full s b hm hlen,
              find_eval_ok { s with cmd_arg_buf := s.cmd_arg_buf ++ [b] }
                (.leaf pm) hwalk]
        refine ⟨_, hfb, ⟨?_, ?_⟩, ?_⟩
        · intro hcontra
          have h2 : (printer_method_args_wrapper (some (.leaf pm))
              { s with cmd_arg_buf := s.cmd_arg_buf ++ [b] }).decoder_mode
              = .FILL_CMD_BUF := hcontra
          simp [printer_method_args_wrapper] at h2
        · intro hcontra
          have h2 : (printer_method_args_wrapper (some (.leaf pm))
              { s with cmd_arg_buf := s.cmd_arg_buf ++ [b] }).decoder_mode
              = .FILL_CMD_ARG_BUF := hcontra
          simp [printer_method_args_wrapper] at h2
        · exact printer_method_args_wrapper_printable _ _ hout
      · refine ⟨_, feed_byte_arg_incomplete s b hm hlen, ⟨?_, ?_⟩, hout⟩
        · intro hcontra
          have h2 : s.decoder_mode = .FILL_CMD_BUF := hcontra
          rw [hm] at h2
          simp at h2
        · intro _
          exact ⟨pm, hwalk⟩

lemma feed_bytes_preserves_inv (bs : List Nat) (s : DecoderState)
    (hinv : decoder_inv s) :
    ∃ s2, feed_bytes s bs = .ok s2 ∧ decoder_inv s2 := by
  induction bs generalizing s with
  | nil => exact ⟨s, rfl, hinv⟩
  | cons b bs ih =>
      obtain ⟨s1, hs1, hinv1⟩ := feed_byte_preserves_inv s b hinv
      obtain ⟨s2, hs2, hinv2⟩ := ih s1 hinv1
      refine ⟨s2, ?_, hinv2⟩
      simp only [feed_bytes, hs1, hs2]

lemma init_state_inv : decoder_inv init_state := by
  refine ⟨⟨?_, ?_⟩, ?_⟩
  · intro h
    simp [init_state] at h
  · intro h
    simp [init_state] at h
  · intro frag hfrag
    simp [init_state] at hfrag

set_option maxRecDepth 4096 in
lemma printables_ascii (c : Nat) (h : c ∈ PRINTABLES) : c ≤ 127 := by
  have hall : ∀ x ∈ PRINTABLES, x ≤ 127 := by decide
  exact hall c h

lemma utf8_valid_cons_ascii (b : Nat) (rest : List Nat) (hb : b ≤ 0x7F) :
    utf8_valid (b :: rest) = utf8_valid rest := by
  have hstep : utf8_step (0, 0, 0) b = some (0, 0, 0) := by
    simp [utf8_step, hb]
  show utf8_run (0, 0, 0) (b :: rest) = utf8_run (0, 0, 0) rest
  rw [show utf8_run (0, 0, 0) (b :: rest)
        = (match utf8_step (0, 0, 0) b with
           | some st2 => utf8_run st2 rest
           | none => false) from rfl,
      hstep]

lemma utf8_valid_of_ascii (l : List Nat) (h : ∀ c ∈ l, c ≤ 127) :
    utf8_valid l = true := by
  induction l with
  | nil => rfl
  | cons b rest ih =>
      have hb : b ≤ 0x7F := h b (by simp)
      rw [utf8_valid_cons_ascii b rest hb]
      exact ih (fun c hc => h c (by simp [hc]))

lemma terminate_feed_printable (s : DecoderState) (h : out_buf_printable s) :
    out_buf_printable (terminate_feed s) := by
  cases hm : s.decoder_mode with
  | FILL_DATA_BUF =>
      rw [show terminate_feed s = data_buf_to_output s by simp [terminate_feed, hm]]
      exact data_buf_to_output_printable s h
  | FILL_CMD_BUF =>
      rw [show terminate_feed s = s by simp [terminate_feed, hm]]
      exact h
  | FILL_CMD_ARG_BUF =>
      rw [show terminate_feed s = s by simp [terminate_feed, hm]]
      exact h

/-- C10: on every input byte stream, feeding never raises, every output
fragment stays inside PRINTABLES (line feeds included), and the final
UTF-8 decode in get_text succeeds. -/
theorem output_ascii_and_utf8_decode_ok (bs : List Nat) :
    ∃ s t s2, feed_bytes init_state bs = .ok s ∧
      get_text s = .ok (t, s2) ∧
      (∀ frag ∈ (terminate_feed s).out_buf, ∀ c ∈ frag, c ∈ PRINTABLES) ∧
      utf8_valid t = true := by
  obtain ⟨s, hs, hinv⟩ := feed_bytes_preserves_inv bs init_state init_state_inv
  have hterm : out_buf_printable (terminate_feed s) :=
    terminate_feed_printable s hinv.2
  have hflat : ∀ c ∈ (terminate_feed s).out_buf.flatten, c ≤ 127 := by
    intro c hc
    rw [List.mem_flatten] at hc
    obtain ⟨frag, hfrag, hcf⟩ := hc
    exact printables_ascii c (hterm frag hfrag c hcf)
  have hvalid : utf8_valid (terminate_feed s).out_buf.flatten = true :=
    utf8_valid_of_ascii _ hflat
  refine ⟨s, (terminate_feed s).out_buf.flatten, reset_state (terminate_feed s),
    hs, ?_, hterm, hvalid⟩
  simp only [get_text, if_pos hvalid]

end EscPos
